import Mathlib

/-!
# Verification of the Galena update-scheduling and subscription core

This file gives a shallow embedding, in Lean 4, of the scheduling and
subscription-propagation core of the Galena state-management library
(`src/Galena/Scheduler.ts`, `src/Galena/State.ts`, `src/Galena/Galena.ts`,
and the `Guards` class), and proves or refutes the frozen claims about it.

The embedding is organised in four independent models, each translated
directly from the source:

1. `Galena.Machine` — the `Scheduler` class together with the single-threaded
   event loop it relies on (a microtask queue and one `setTimeout` timer per
   unit).  A scheduled task is the closure
   `() => this.emitter.emit(this.name, this.state)`; since every such closure
   reads the **live** `this.state` at execution time, a task is represented by
   the numeric identity of the `scheduleTask` call that created it, and
   executing a task emits the machine's current state.
2. `Galena.mutation` — the mutation wrapper of `State` (`State.mutation`,
   `State.lifeCycleEvent`, `State.scheduleUpdate`), modelled as a trace-producing
   function so that the ordering of lifecycle hooks, the mutation body, and the
   hand-off to the scheduler can be stated.
3. `Galena.Container` — the `Galena` container class (`composeState`,
   `subscribeAll`, `unsubscribeAll`, `reIndexSubscriptions`) over an explicit
   model of the per-unit `EventEmitter` storage (`on` / `off` / `emit` with
   auto-incrementing IDs, storage keyed by the unit's name).
   Thrown JavaScript exceptions are modelled with `Except`.
4. `Galena.Heap` — a small object-heap model of `State.clone` and `State.reset`,
   faithful to the fact that `clone` copies only the top level of an array /
   object and shares every nested reference.
-/

namespace Galena

/-- The three scheduling priorities of `src/Galena/types.ts` / `Scheduler.ts`. -/
inductive Priority where
  | immediate
  | microtask
  | background
deriving DecidableEq

/-- The observable state of one `State` unit's scheduler together with the
event-loop facilities it uses.

* `state` is the unit's live `this.state` (mutations write it in place);
* `task` is `Scheduler.task` (`null` or the recorded pending task), a task
  being identified by the number of the `scheduleTask` call that created it;
* `timerActive` is whether `Scheduler.schedule` holds a live `setTimeout`
  handle;
* `microQ` is the queue of continuations enqueued by
  `Promise.resolve().then(...)` in the `MICROTASK` branch;
* `emitted` is the log of notifications delivered so far: executing a task
  appends the pair (task id, state read live at execution time), which is what
  `this.emitter.emit(this.name, this.state)` delivers to every subscriber. -/
structure Machine (σ : Type) where
  state : σ
  task : Option Nat
  timerActive : Bool
  microQ : List Nat
  emitted : List (Nat × σ)
deriving DecidableEq

variable {σ : Type}

/-- Model of `Scheduler.clearSchedule`: `clearTimeout` on the stored handle (if any) and
null it out.  In the model an active timer is just the flag `timerActive`. -/
def clearSchedule (m : Machine σ) : Machine σ :=
  { m with timerActive := false }

/-- Model of `Scheduler.executeTasks`: clear the schedule, run `this.task?.()` — which
emits the unit's live state to its subscribers — then set `this.task = null`. -/
def executeTasks (m : Machine σ) : Machine σ :=
  let m1 := clearSchedule m
  match m1.task with
  | some t => { m1 with emitted := m1.emitted ++ [(t, m1.state)], task := none }
  | none => m1

/-- Model of `Scheduler.createSchedule`: clear any existing schedule, then
`setTimeout(() => this.executeTasks(), 5)` — in the model, arm the timer. -/
def createSchedule (m : Machine σ) : Machine σ :=
  { clearSchedule m with timerActive := true }

/-- Model of `Scheduler.scheduleTask(task, priority)`, translated case by case:

* `IMMEDIATE`: `this.task = task; return this.executeTasks();`
* `MICROTASK`: `Promise.resolve().then(() => { this.task = task; this.executeTasks() })`
  — the continuation (carrying its task) is appended to the microtask queue and
  runs later via `runMicrotask`;
* `BACKGROUND`: `if (this.task && this.schedule) return;` then
  `this.task = task; this.createSchedule();`. -/
def scheduleTask (m : Machine σ) (t : Nat) (p : Priority) : Machine σ :=
  match p with
  | .immediate => executeTasks { m with task := some t }
  | .microtask => { m with microQ := m.microQ ++ [t] }
  | .background =>
      if m.task.isSome && m.timerActive then m
      else createSchedule { m with task := some t }

/-- The `setTimeout` callback firing: it runs `executeTasks`.  It can only fire
while the timer is armed (a cleared timer never fires). -/
def timerFire (m : Machine σ) : Machine σ :=
  if m.timerActive then executeTasks m else m

/-- The event loop running the oldest queued microtask continuation:
`this.task = task; return this.executeTasks();`. -/
def runMicrotask (m : Machine σ) : Machine σ :=
  match m.microQ with
  | [] => m
  | t :: rest => executeTasks { { m with microQ := rest } with task := some t }

/-- One mutation issued through a `State.mutation`-wrapped method at priority
`p`: the body mutates `this.state` in place (here: `state := f state`), after
which `State.scheduleUpdate` hands the notification task to the scheduler.
`t` is the identity of that freshly created task closure. -/
def mutate (m : Machine σ) (f : σ → σ) (t : Nat) (p : Priority) : Machine σ :=
  scheduleTask { m with state := f m.state } t p

/-- Issue a whole list of mutations, in order, all at priority `p`. -/
def mutateAll : Machine σ → List ((σ → σ) × Nat) → Priority → Machine σ
  | m, [], _ => m
  | m, ft :: rest, p => mutateAll (mutate m ft.1 ft.2 p) rest p

/-- The notifications an in-order sequence of immediate mutations delivers,
starting from state `s`: one per mutation, carrying the state right after that
mutation's body ran. -/
def immediateEmits (s : σ) : List ((σ → σ) × Nat) → List (Nat × σ)
  | [] => []
  | ft :: rest => (ft.2, ft.1 s) :: immediateEmits (ft.1 s) rest

/-- While a batched task is recorded and its timer is armed, a further
batched-lane `scheduleTask` call hits the early `return` and changes nothing,
so a batched mutation in that window only mutates the live state. -/
lemma mutate_background_pending (m : Machine σ) (f : σ → σ) (t' t : Nat)
    (hTask : m.task = some t) (hTimer : m.timerActive = true) :
    mutate m f t' Priority.background = { m with state := f m.state } := by
  simp [mutate, scheduleTask, hTask, hTimer]

/-- Folding batched mutations over a machine whose batched window is already
open only folds the state; task, timer, queue and log are untouched. -/
lemma mutateAll_background_pending (fs : List ((σ → σ) × Nat)) (m : Machine σ)
    (t : Nat) (hTask : m.task = some t) (hTimer : m.timerActive = true) :
    mutateAll m fs Priority.background
      = { m with state := fs.foldl (fun s ft => ft.1 s) m.state } := by
  induction fs generalizing m with
  | nil => simp [mutateAll]
  | cons ft rest ih =>
      rw [mutateAll, mutate_background_pending _ _ _ t hTask hTimer]
      rw [ih { m with state := ft.1 m.state } hTask hTimer]
      simp

/-- Opening the batched window from an idle scheduler: the first batched
mutation records its task and arms the timer. -/
lemma mutate_background_idle (m : Machine σ) (f : σ → σ) (t : Nat)
    (hTask : m.task = none) (hTimer : m.timerActive = false) :
    mutate m f t Priority.background
      = { m with state := f m.state, task := some t, timerActive := true } := by
  simp [mutate, scheduleTask, createSchedule, clearSchedule, hTask, hTimer]

/-- An immediate mutation executes its notification task synchronously: it
emits the post-mutation state at once, clears the recorded task (overwriting
any pending batched task), and disarms the batched timer. -/
lemma mutate_immediate (m : Machine σ) (f : σ → σ) (t : Nat) :
    mutate m f t Priority.immediate
      = { m with state := f m.state, task := none, timerActive := false,
                 emitted := m.emitted ++ [(t, f m.state)] } := by
  simp [mutate, scheduleTask, executeTasks, clearSchedule]

/-- Folding immediate mutations: each one appends exactly one notification,
in issue order, and leaves the scheduler with no recorded task and no armed
timer. -/
lemma mutateAll_immediate (ms : List ((σ → σ) × Nat)) (m : Machine σ) :
    mutateAll m ms Priority.immediate
      = { m with state := ms.foldl (fun s ft => ft.1 s) m.state,
                 task := if ms.isEmpty then m.task else none,
                 timerActive := if ms.isEmpty then m.timerActive else false,
                 emitted := m.emitted ++ immediateEmits m.state ms } := by
  induction ms generalizing m with
  | nil => simp [mutateAll, immediateEmits]
  | cons ft rest ih =>
      rw [mutateAll, mutate_immediate]
      rw [ih { m with state := ft.1 m.state, task := none, timerActive := false,
                      emitted := m.emitted ++ [(ft.2, ft.1 m.state)] }]
      cases rest <;> simp [immediateEmits]

/-- C1.  For every sequence of batched-priority mutations issued on one `State`
unit inside a single batched scheduling window (the window opens on the first
batched mutation of an idle scheduler), no subscriber notification fires during
the window, and when the window's 5 ms timer elapses exactly one notification
fires; its payload is the unit's live state at flush time — the state after the
last mutation of the window — and the retained task id is irrelevant to the
payload, which is never a snapshot captured at scheduling time. -/
theorem C1_batched_window_single_live_notification (m : Machine σ)
    (f : σ → σ) (t : Nat) (rest : List ((σ → σ) × Nat))
    (hTask : m.task = none) (hTimer : m.timerActive = false) :
    (mutateAll m ((f, t) :: rest) Priority.background).emitted = m.emitted ∧
    (timerFire (mutateAll m ((f, t) :: rest) Priority.background)).emitted
      = m.emitted ++ [(t, rest.foldl (fun s ft => ft.1 s) (f m.state))] ∧
    (timerFire (mutateAll m ((f, t) :: rest) Priority.background)).state
      = rest.foldl (fun s ft => ft.1 s) (f m.state) := by
  rw [mutateAll, mutate_background_idle m f t hTask hTimer]
  rw [mutateAll_background_pending rest _ t rfl rfl]
  simp [timerFire, executeTasks, clearSchedule]

/-- Witness for `C1_batched_window_single_live_notification`: two batched
mutations in one window flush once, with the state after the second mutation. -/
theorem C1_batched_window_single_live_notification_witness :
    (mutateAll (⟨0, none, false, [], []⟩ : Machine Nat)
        [(fun s => s + 1, 10), (fun s => s * 7, 11)] Priority.background).emitted = [] ∧
    (timerFire (mutateAll (⟨0, none, false, [], []⟩ : Machine Nat)
        [(fun s => s + 1, 10), (fun s => s * 7, 11)] Priority.background)).emitted
      = [] ++ [(10, [((fun s => s * 7 : Nat → Nat), 11)].foldl (fun s ft => ft.1 s) ((0 : Nat) + 1))] ∧
    (timerFire (mutateAll (⟨0, none, false, [], []⟩ : Machine Nat)
        [(fun s => s + 1, 10), (fun s => s * 7, 11)] Priority.background)).state
      = [((fun s => s * 7 : Nat → Nat), 11)].foldl (fun s ft => ft.1 s) ((0 : Nat) + 1) :=
  C1_batched_window_single_live_notification
    (⟨0, none, false, [], []⟩ : Machine Nat) (fun s => s + 1) 10
    [(fun s => s * 7, 11)] rfl rfl

/-- C6.  For every sequence of immediate-priority mutations on one unit, each
mutation's notification task runs synchronously inside `scheduleTask`
(`executeTasks` is invoked before `scheduleTask` returns): one notification
per mutation, in issue order, each carrying the state right after its
mutation; afterwards no task is recorded and the batched timer is disarmed —
in particular any batched task pending when the sequence began was overwritten
and its timer cleared, so a later timer callback cannot produce a stale second
flush. -/
theorem C6_immediate_sync_one_notification_per_mutation (m : Machine σ)
    (ft : (σ → σ) × Nat) (rest : List ((σ → σ) × Nat)) :
    (mutateAll m (ft :: rest) Priority.immediate).emitted
      = m.emitted ++ immediateEmits m.state (ft :: rest) ∧
    (mutateAll m (ft :: rest) Priority.immediate).task = none ∧
    (mutateAll m (ft :: rest) Priority.immediate).timerActive = false ∧
    timerFire (mutateAll m (ft :: rest) Priority.immediate)
      = mutateAll m (ft :: rest) Priority.immediate := by
  rw [mutateAll_immediate]
  simp [timerFire]

/-- C9.  A batched-priority `scheduleTask` call arriving while the unit already
has a recorded pending task and an armed timer returns without replacing the
recorded task; consequently the whole batched window retains the task recorded
by its first batched mutation and discards the task of every later batched
mutation submitted before the flush (while still applying their state
changes). -/
theorem C9_batched_window_retains_first_task (m : Machine σ) (t t' : Nat)
    (fs : List ((σ → σ) × Nat))
    (hTask : m.task = some t) (hTimer : m.timerActive = true) :
    scheduleTask m t' Priority.background = m ∧
    (mutateAll m fs Priority.background).task = some t ∧
    (mutateAll m fs Priority.background).timerActive = true := by
  refine ⟨by simp [scheduleTask, hTask, hTimer], ?_, ?_⟩ <;>
    rw [mutateAll_background_pending fs m t hTask hTimer] <;> simp [hTask, hTimer]

/-- Witness for `C9_batched_window_retains_first_task`: with task 5 pending and
the timer armed, a later batched schedule of task 6 is a no-op. -/
theorem C9_batched_window_retains_first_task_witness :
    scheduleTask (⟨0, some 5, true, [], []⟩ : Machine Nat) 6 Priority.background
      = (⟨0, some 5, true, [], []⟩ : Machine Nat) ∧
    (mutateAll (⟨0, some 5, true, [], []⟩ : Machine Nat)
        [(fun s => s + 1, 6)] Priority.background).task = some 5 ∧
    (mutateAll (⟨0, some 5, true, [], []⟩ : Machine Nat)
        [(fun s => s + 1, 6)] Priority.background).timerActive = true :=
  C9_batched_window_retains_first_task (⟨0, some 5, true, [], []⟩ : Machine Nat)
    5 6 [(fun s => s + 1, 6)] rfl rfl

/-- C10.  With a batched task recorded and its timer armed, scheduling a
microtask-priority task and letting the microtask run (which, on a
single-threaded event loop, happens before the 5 ms timer callback) overwrites
the recorded task and clears the batched timer inside `executeTasks`: exactly
one notification is delivered — the microtask's — and the previously pending
batched flush can never fire separately afterwards. -/
theorem C10_microtask_flush_supersedes_batched (m : Machine σ) (tb tm : Nat)
    (hTask : m.task = some tb) (hTimer : m.timerActive = true)
    (hQ : m.microQ = []) :
    (runMicrotask (scheduleTask m tm Priority.microtask)).emitted
      = m.emitted ++ [(tm, m.state)] ∧
    (runMicrotask (scheduleTask m tm Priority.microtask)).task = none ∧
    (runMicrotask (scheduleTask m tm Priority.microtask)).timerActive = false ∧
    timerFire (runMicrotask (scheduleTask m tm Priority.microtask))
      = runMicrotask (scheduleTask m tm Priority.microtask) := by
  simp [scheduleTask, runMicrotask, executeTasks, clearSchedule, timerFire, hQ]

/-- Witness for `C10_microtask_flush_supersedes_batched`: batched task 3 is
pending with the timer armed; microtask 4 flushes alone and the timer is gone. -/
theorem C10_microtask_flush_supersedes_batched_witness :
    (runMicrotask (scheduleTask (⟨9, some 3, true, [], []⟩ : Machine Nat) 4
        Priority.microtask)).emitted = [] ++ [(4, 9)] ∧
    (runMicrotask (scheduleTask (⟨9, some 3, true, [], []⟩ : Machine Nat) 4
        Priority.microtask)).task = none ∧
    (runMicrotask (scheduleTask (⟨9, some 3, true, [], []⟩ : Machine Nat) 4
        Priority.microtask)).timerActive = false ∧
    timerFire (runMicrotask (scheduleTask (⟨9, some 3, true, [], []⟩ : Machine Nat) 4
        Priority.microtask))
      = runMicrotask (scheduleTask (⟨9, some 3, true, [], []⟩ : Machine Nat) 4
          Priority.microtask) :=
  C10_microtask_flush_supersedes_batched (⟨9, some 3, true, [], []⟩ : Machine Nat)
    3 4 rfl rfl rfl

/-!
## The mutation wrapper (`State.mutation`, `State.lifeCycleEvent`,
## `State.scheduleUpdate`)

Middleware instances are identified by numbers; what matters for the claims is
the order of their lifecycle calls and of the surrounding steps, so a mutation
run produces a trace of `LifeEvent`s.  The body of a wrapped mutation may
return a plain value, throw synchronously, or return a promise that later
resolves or rejects. -/

/-- One observable step of a mutation's lifecycle. -/
inductive LifeEvent where
  | beforeHook (mw : Nat)
  | bodyRun
  | afterHook (mw : Nat)
  | handToScheduler (p : Priority)
deriving DecidableEq

/-- What `const returnValue = func(...args)` can do: return a non-promise
value, throw synchronously, or return a promise that eventually resolves or
rejects with an error.  Each case carries the live state the body left behind
(a throwing body may already have mutated it in place). -/
inductive BodyResult (σ : Type) where
  | value (s : σ)
  | thrown (s : σ) (e : Nat)
  | promiseResolved (s : σ)
  | promiseRejected (s : σ) (e : Nat)
deriving DecidableEq

/-- Model of `State.lifeCycleEvent`: `for (let i = maxIndex; i > -1; i--)
this.middleware[i][event](this)` — the hook of index `i` fires, then the
indices below it.  `lifeCycleEvent mw tag k` renders the loop with `k` calls
remaining, so the loop body is `lifeCycleEvent mw tag mw.length`. -/
def lifeCycleEvent (mw : List Nat) (tag : Nat → LifeEvent) : Nat → List LifeEvent
  | 0 => []
  | k + 1 => (match mw.get? k with
      | some i => [tag i]
      | none => []) ++ lifeCycleEvent mw tag k

/-- The descending middleware loop fires the hooks in reverse registration
order: most recently registered first. -/
lemma lifeCycleEvent_eq_reverse_map (mw : List Nat) (tag : Nat → LifeEvent) :
    lifeCycleEvent mw tag mw.length = mw.reverse.map tag := by
  suffices h : ∀ k, k ≤ mw.length →
      lifeCycleEvent mw tag k = (mw.take k).reverse.map tag by
    simpa using h mw.length le_rfl
  intro k
  induction k with
  | zero => intro _; simp [lifeCycleEvent]
  | succ n ih =>
      intro hle
      have hn : n < mw.length := Nat.lt_of_succ_le hle
      rw [lifeCycleEvent, ih (Nat.le_of_lt hn), List.get?_eq_get hn,
          List.take_succ, List.getElem?_eq_getElem hn]
      simp [List.get_eq_getElem]
      rw [List.take_succ, List.getElem?_eq_getElem (by simpa using hn)]
      simp

/-- The outcome of invoking a `State.mutation`-wrapped method once. -/
structure MutationRun (σ : Type) where
  /-- the lifecycle steps, in execution order -/
  trace : List LifeEvent
  /-- the unit's state when the run (incl. promise settlement) is over -/
  state : σ
  /-- what the caller of the wrapped method observes: success or the
  propagated exception, unwrapped -/
  outcome : Except Nat Unit

/-- Model of `State.mutation(func, priority)` and `State.scheduleUpdate(priority)`,
translated step by step:

```
this.lifeCycleEvent(onBeforeUpdate);     // before hooks, reverse order
const returnValue = func(...args);       // may throw: propagates, nothing more runs
if (returnValue instanceof Promise) {
  return returnValue.then(v => { this.scheduleUpdate(priority); return v; });
}                                        // a rejection skips the then-callback
this.scheduleUpdate(priority);           // after hooks, reverse order, then
return returnValue;                      // scheduleTask(() => emit, priority)
```

The trace records `bodyRun` when `func` begins executing, the `afterHook`s
fired by `scheduleUpdate`'s `lifeCycleEvent(onUpdate)`, and `handToScheduler`
for the `scheduleTask` call. -/
def mutation (mw : List Nat) (p : Priority) (s : σ) (body : σ → BodyResult σ) :
    MutationRun σ :=
  let pre := lifeCycleEvent mw LifeEvent.beforeHook mw.length
  match body s with
  | .thrown s1 e => ⟨pre ++ [LifeEvent.bodyRun], s1, .error e⟩
  | .value s1 =>
      ⟨pre ++ [LifeEvent.bodyRun]
           ++ lifeCycleEvent mw LifeEvent.afterHook mw.length
           ++ [LifeEvent.handToScheduler p], s1, .ok ()⟩
  | .promiseResolved s1 =>
      ⟨pre ++ [LifeEvent.bodyRun]
           ++ lifeCycleEvent mw LifeEvent.afterHook mw.length
           ++ [LifeEvent.handToScheduler p], s1, .ok ()⟩
  | .promiseRejected s1 e => ⟨pre ++ [LifeEvent.bodyRun], s1, .error e⟩

/-- C4.  For every wrapped mutation that completes (synchronously or by
promise resolution) on a unit whose middleware list is `mw` (registration
order), the lifecycle is strictly ordered: every before-update hook fires in
reverse registration order (last registered first), then the mutation body
runs, then every after-update hook fires in the same reverse order, and then
the notification task is handed to the scheduler. -/
theorem C4_mutation_lifecycle_order (mw : List Nat) (p : Priority) (s : σ)
    (body : σ → BodyResult σ)
    (h : (∃ s1, body s = .value s1) ∨ (∃ s1, body s = .promiseResolved s1)) :
    (mutation mw p s body).trace
      = mw.reverse.map LifeEvent.beforeHook
          ++ [LifeEvent.bodyRun]
          ++ mw.reverse.map LifeEvent.afterHook
          ++ [LifeEvent.handToScheduler p] := by
  rcases h with ⟨s1, h⟩ | ⟨s1, h⟩ <;>
    simp [mutation, h, lifeCycleEvent_eq_reverse_map]

/-- Witness for `C4_mutation_lifecycle_order`: middleware M1 = 1 registered
first, M2 = 2 second; the before hooks fire as M2 then M1 and the after hooks
likewise, around the body and ahead of the scheduler hand-off. -/
theorem C4_mutation_lifecycle_order_witness :
    (mutation [1, 2] Priority.background (0 : Nat)
        (fun s => BodyResult.value (s + 1))).trace
      = [1, 2].reverse.map LifeEvent.beforeHook
          ++ [LifeEvent.bodyRun]
          ++ [1, 2].reverse.map LifeEvent.afterHook
          ++ [LifeEvent.handToScheduler Priority.background] :=
  C4_mutation_lifecycle_order [1, 2] Priority.background 0
    (fun s => BodyResult.value (s + 1)) (Or.inl ⟨1, rfl⟩)

/-- C5.  For every mutation body that throws synchronously or whose returned
promise rejects: every middleware's before-update hook has already fired (in
reverse registration order) and the body started running, but no after-update
hook fires, no notification task is handed to the scheduler, and the caller
observes exactly the thrown error, unwrapped. -/
theorem C5_failed_mutation_no_notification (mw : List Nat) (p : Priority)
    (s s1 : σ) (body : σ → BodyResult σ) (e : Nat)
    (h : body s = .thrown s1 e ∨ body s = .promiseRejected s1 e) :
    (mutation mw p s body).trace
        = mw.reverse.map LifeEvent.beforeHook ++ [LifeEvent.bodyRun] ∧
    (mutation mw p s body).outcome = .error e ∧
    (∀ i, LifeEvent.afterHook i ∉ (mutation mw p s body).trace) ∧
    (∀ q, LifeEvent.handToScheduler q ∉ (mutation mw p s body).trace) := by
  have htr : (mutation mw p s body).trace
      = mw.reverse.map LifeEvent.beforeHook ++ [LifeEvent.bodyRun] := by
    rcases h with h | h <;> simp [mutation, h, lifeCycleEvent_eq_reverse_map]
  have hout : (mutation mw p s body).outcome = .error e := by
    rcases h with h | h <;> simp [mutation, h]
  refine ⟨htr, hout, ?_, ?_⟩ <;> intro i <;> rw [htr] <;> simp

/-- Witness for `C5_failed_mutation_no_notification`: a body that throws error
42 after both before hooks (M2 = 2 then M1 = 1) fired; the error propagates
and no after hook or scheduler hand-off appears in the trace. -/
theorem C5_failed_mutation_no_notification_witness :
    (mutation [1, 2] Priority.immediate (0 : Nat)
        (fun _ => BodyResult.thrown 0 42)).trace
        = [1, 2].reverse.map LifeEvent.beforeHook ++ [LifeEvent.bodyRun] ∧
    (mutation [1, 2] Priority.immediate (0 : Nat)
        (fun _ => BodyResult.thrown 0 42)).outcome = .error 42 ∧
    (∀ i, LifeEvent.afterHook i ∉ (mutation [1, 2] Priority.immediate (0 : Nat)
        (fun _ => BodyResult.thrown 0 42)).trace) ∧
    (∀ q, LifeEvent.handToScheduler q ∉ (mutation [1, 2] Priority.immediate
        (0 : Nat) (fun _ => BodyResult.thrown 0 42)).trace) :=
  C5_failed_mutation_no_notification [1, 2] Priority.immediate 0 0
    (fun _ => BodyResult.thrown 0 42) 42 (Or.inl rfl)

/-!
## The container (`Galena.composeState`, `Galena.subscribeAll`,
## `Galena.reIndexSubscriptions`, `Guards`)

A unit's `EventEmitter` stores, under the topic equal to the unit's `name`,
a map from auto-incremented subscription ID to listener; `State.subscribe`
only ever registers under `this.name`, so the storage is modelled as that one
map.  A listener is identified by the callback it invokes (`subscribeAll`
wraps one container-level callback in one closure per unit; re-indexing
re-subscribes the very closure recovered from the first tracked unit's
storage, which invokes the same callback).  State payloads and middleware
registration are elided: the claims below are about subscription wiring only.
JavaScript exceptions escaping these methods are modelled with `Except`:
`guardDuplicateStates` throwing is `duplicateName`, and
`const [stateName, listenerID] = unitSubscriptions[0]` destructuring
`undefined` (or property access on an undefined unit) is `typeError`. -/

/-- The identity of the container-level callback a per-unit listener invokes. -/
abbrev Listener := Nat

/-- One `State` unit's subscription storage: its name (= its emitter topic),
the topic's ID-to-listener map in insertion order, and the emitter's
auto-incrementing ID counter. -/
structure SUnit where
  name : String
  subscribers : List (Nat × Listener)
  nextID : Nat
deriving DecidableEq

/-- Model of `State.subscribe(callback)` = `emitter.on(this.name, callback)`: store the
listener under a fresh ID and return the ID. -/
def SUnit.subscribe (u : SUnit) (l : Listener) : SUnit × Nat :=
  ({ u with subscribers := u.subscribers ++ [(u.nextID, l)],
            nextID := u.nextID + 1 }, u.nextID)

/-- Model of `State.unsubscribe(ID)` = `emitter.off(this.name, ID)`: drop the entry. -/
def SUnit.unsubscribe (u : SUnit) (id : Nat) : SUnit :=
  { u with subscribers := u.subscribers.filter (fun p => p.1 ≠ id) }

/-- Model of `emitter.emit(name, …)`: the listeners invoked by a notification of this
unit, in registration order. -/
def SUnit.emit (u : SUnit) : List Listener :=
  u.subscribers.map (fun p => p.2)

/-- Model of `subscriptions?.storage?.get?.(listenerID)` — look a listener up by ID in
the unit's topic storage. -/
def SUnit.findListener (u : SUnit) (id : Nat) : Option Listener :=
  match u.subscribers.find? (fun p => p.1 = id) with
  | some p => some p.2
  | none => none

/-- JavaScript property lookup `state[name]` on the container's unit record. -/
def lookupUnit : List (String × SUnit) → String → Option SUnit
  | [], _ => none
  | (k, u) :: rest, n => if k = n then some u else lookupUnit rest n

/-- JavaScript property assignment `state[name] = unit`: overwrite in place if
the key exists, else append. -/
def upsertUnit : List (String × SUnit) → String → SUnit → List (String × SUnit)
  | [], n, u => [(n, u)]
  | (k, v) :: rest, n, u =>
      if k = n then (n, u) :: rest else (k, v) :: upsertUnit rest n u

/-- The `Galena` container: `this.state` (unit record, insertion order),
`this.subscriptions` (container-level subscription ID ↦ list of
(unit name, per-unit listener ID) tuples, insertion order), and the
`AutoIncrementingID` counter backing `this.IDs`. -/
structure Container where
  units : List (String × SUnit)
  subscriptions : List (Nat × List (String × Nat))
  nextSubID : Nat
deriving DecidableEq

/-- Model of `this.state[n]`. -/
def getUnit (c : Container) (n : String) : Option SUnit :=
  lookupUnit c.units n

/-- The per-unit loop of `Galena.subscribeAll`: for each unit in insertion
order, register a fresh closure invoking the container-level callback, and
record the (name, per-unit ID) pair. -/
def subAllGo : List (String × SUnit) → Listener → List (String × SUnit) × List (String × Nat)
  | [], _ => ([], [])
  | (k, u) :: rest, cb =>
      let su := u.subscribe cb
      let tail := subAllGo rest cb
      ((k, su.1) :: tail.1, (k, su.2) :: tail.2)

/-- Model of `Galena.subscribeAll(callback)`: subscribe to every current unit, store the
collected tuples under a fresh container-level subscription ID, return the ID. -/
def subscribeAll (c : Container) (cb : Listener) : Container × Nat :=
  let r := subAllGo c.units cb
  ({ c with units := r.1,
            subscriptions := c.subscriptions ++ [(c.nextSubID, r.2)],
            nextSubID := c.nextSubID + 1 }, c.nextSubID)

/-- Exceptions that can escape the container operations. -/
inductive GError where
  | duplicateName
  | typeError
deriving DecidableEq

/-- Model of `Map.set(ID, list)` on `this.subscriptions`. -/
def setSubscription : List (Nat × List (String × Nat)) → Nat → List (String × Nat) →
    List (Nat × List (String × Nat))
  | [], id, v => [(id, v)]
  | (k, xs) :: rest, id, v =>
      if k = id then (id, v) :: rest else (k, xs) :: setSubscription rest id v

/-- One iteration of the `Galena.reIndexSubscriptions` loop, for the freshly
composed unit `name` and the subscription entry `e = (ID, unitSubscriptions)`:

```
const [stateName, listenerID] = unitSubscriptions[0];      // [] → TypeError
const subscriptions = this.state[stateName]["emitter"].storage.get(stateName);
                                     // missing unit → TypeError on undefined
const listener = subscriptions?.storage?.get?.(listenerID);
if (listener) {
  unitSubscriptions.push([name, this.state[name].subscribe(listener)]);
  this.subscriptions.set(ID, unitSubscriptions);
}
``` -/
def reIndexStep (name : String) (c : Container) (e : Nat × List (String × Nat)) :
    Except GError Container :=
  match e.2 with
  | [] => .error .typeError
  | (stateName, listenerID) :: _ =>
      match getUnit c stateName with
      | none => .error .typeError
      | some u =>
          match u.findListener listenerID with
          | none => .ok c
          | some l =>
              match getUnit c name with
              | none => .error .typeError
              | some ub =>
                  let su := ub.subscribe l
                  .ok { c with
                        units := upsertUnit c.units name su.1,
                        subscriptions :=
                          setSubscription c.subscriptions e.1 (e.2 ++ [(name, su.2)]) }

/-- The `for (const [ID, unitSubscriptions] of this.subscriptions)` loop:
entries are visited in insertion order; each visited entry only rewrites its
own value, so iterating the snapshot list is the Map iteration. -/
def reIndexGo (name : String) : Container → List (Nat × List (String × Nat)) →
    Except GError Container
  | c, [] => .ok c
  | c, e :: rest =>
      match reIndexStep name c e with
      | .error err => .error err
      | .ok c1 => reIndexGo name c1 rest

/-- Model of `Galena.reIndexSubscriptions(name)`. -/
def reIndexSubscriptions (c : Container) (name : String) : Except GError Container :=
  reIndexGo name c c.subscriptions

/-- Model of `Galena.composeState(name, initialState, Model?)` with the build mode made
explicit: `guardDuplicateStates` is wrapped in `developmentGuard`, so it
throws on a duplicate name only when `NODE_ENV === "development"` (`dev`);
then the new unit is stored with `this.mutable[name] = state` (a plain
property assignment — an overwrite if the name is already present) and
`reIndexSubscriptions(name)` runs.  A fresh unit has empty emitter storage. -/
def composeState (dev : Bool) (c : Container) (name : String) :
    Except GError Container :=
  if dev && (getUnit c name).isSome then .error .duplicateName
  else
    reIndexSubscriptions
      { c with units := upsertUnit c.units name ⟨name, [], 0⟩ } name

/-- Property assignment then lookup at the same name yields the new unit. -/
lemma lookupUnit_upsert_self (us : List (String × SUnit)) (n : String) (u : SUnit) :
    lookupUnit (upsertUnit us n u) n = some u := by
  induction us with
  | nil => simp [upsertUnit, lookupUnit]
  | cons kv rest ih =>
      by_cases h : kv.1 = n <;>
        simp [upsertUnit, lookupUnit, h, ih]

/-- Property assignment leaves every other name's lookup unchanged. -/
lemma lookupUnit_upsert_other (us : List (String × SUnit)) (n n' : String)
    (u : SUnit) (h : n' ≠ n) :
    lookupUnit (upsertUnit us n u) n' = lookupUnit us n' := by
  have hne : ¬n = n' := fun hh => h hh.symm
  induction us with
  | nil => simp [upsertUnit, lookupUnit, hne]
  | cons kv rest ih =>
      obtain ⟨k, v⟩ := kv
      by_cases hk : k = n
      · subst hk
        simp [upsertUnit, lookupUnit, hne]
      · by_cases hk' : k = n' <;> simp [upsertUnit, lookupUnit, hk, hk', ih, h]

/-- Running the re-index loop over a concatenation runs the halves in order. -/
lemma reIndexGo_append (b : String) (xs ys : List (Nat × List (String × Nat)))
    (c : Container) :
    reIndexGo b c (xs ++ ys)
      = match reIndexGo b c xs with
        | .ok c1 => reIndexGo b c1 ys
        | .error err => .error err := by
  induction xs generalizing c with
  | nil => simp [reIndexGo]
  | cons e rest ih =>
      rw [List.cons_append, reIndexGo, reIndexGo]
      cases reIndexStep b c e with
      | error err => rfl
      | ok c1 => exact ih c1

/-- The invariant of the re-index loop: as long as every remaining entry's
first tracked pair names an existing unit other than the freshly composed one
`b`, the loop succeeds, unit `b`'s subscriber list only grows (listeners are
appended, never removed), and the storage of every other unit is untouched. -/
lemma reIndexGo_extends (b : String)
    (entries : List (Nat × List (String × Nat))) :
    ∀ (c : Container) (ub : SUnit), getUnit c b = some ub →
    (∀ e ∈ entries, ∃ sn lid r,
        e.2 = (sn, lid) :: r ∧ sn ≠ b ∧ (getUnit c sn).isSome) →
    ∃ c' ub' ext, reIndexGo b c entries = .ok c' ∧ getUnit c' b = some ub' ∧
      ub'.subscribers = ub.subscribers ++ ext ∧
      ∀ s, s ≠ b → getUnit c' s = getUnit c s := by
  induction entries with
  | nil =>
      intro c ub hub _
      exact ⟨c, ub, [], rfl, hub, by simp, fun _ _ => rfl⟩
  | cons e rest ih =>
      intro c ub hub hE
      obtain ⟨eid, elist⟩ := e
      obtain ⟨sn, lid, r, he2, hsnb, hsn⟩ := hE (eid, elist) (by simp)
      simp only at he2
      subst he2
      obtain ⟨u, hu⟩ := Option.isSome_iff_exists.mp hsn
      cases hfl : u.findListener lid with
      | none =>
          have hstep : reIndexStep b c (eid, (sn, lid) :: r) = .ok c := by
            simp [reIndexStep, hu, hfl]
          rw [reIndexGo, hstep]
          exact ih c ub hub (fun e' he' => hE e' (by simp [he']))
      | some l =>
          have hstep : reIndexStep b c (eid, (sn, lid) :: r)
              = .ok { c with
                      units := upsertUnit c.units b (ub.subscribe l).1,
                      subscriptions := setSubscription c.subscriptions eid
                        (((sn, lid) :: r) ++ [(b, (ub.subscribe l).2)]) } := by
            simp [reIndexStep, hu, hfl, hub]
          rw [reIndexGo, hstep]
          set c1 : Container :=
            { c with
              units := upsertUnit c.units b (ub.subscribe l).1,
              subscriptions := setSubscription c.subscriptions eid
                (((sn, lid) :: r) ++ [(b, (ub.subscribe l).2)]) } with hc1
          have hub1 : getUnit c1 b = some (ub.subscribe l).1 := by
            simpa [getUnit, hc1] using
              lookupUnit_upsert_self c.units b (ub.subscribe l).1
          have hpres1 : ∀ s, s ≠ b → getUnit c1 s = getUnit c s := by
            intro s hs
            simpa [getUnit, hc1] using
              lookupUnit_upsert_other c.units b s (ub.subscribe l).1 hs
          obtain ⟨c', ub', ext, hgo, hub', hsubs, hpres⟩ :=
            ih c1 (ub.subscribe l).1 hub1 (by
              intro e' he'
              obtain ⟨sn', lid', r', he2', hsnb', hsn'⟩ :=
                hE e' (by simp [he'])
              exact ⟨sn', lid', r', he2', hsnb',
                by rw [hpres1 sn' hsnb']; exact hsn'⟩)
          refine ⟨c', ub', (ub.nextID, l) :: ext, hgo, hub', ?_, ?_⟩
          · rw [hsubs]
            simp [SUnit.subscribe]
          · intro s hs
            rw [hpres s hs, hpres1 s hs]

/-- C2.  A container-wide subscription registered (via `subscribeAll`) before
a unit named `b` exists is re-indexed by `composeState(b, …)`: provided the
listener recorded for the subscription's first tracked unit is still
registered there (the claim's proviso), `composeState` succeeds and the
recovered listener — the closure invoking the subscription's callback — is
registered on unit `b`, so it is invoked whenever `b` notifies its
subscribers; the storage of every previously covered unit is untouched, so
the entry covers all units existing after the re-index pass.  (The hypothesis
on the other entries — each tracks at least one existing unit — is exactly
what every `subscribeAll` on a non-empty container establishes.) -/
theorem C2_reindex_covers_new_unit (dev : Bool) (c : Container) (b : String)
    (eid : Nat) (sn : String) (lid : Nat) (tail : List (String × Nat))
    (l : Listener) (u : SUnit)
    (hb : getUnit c b = none)
    (hall : ∀ e ∈ c.subscriptions, ∃ sn0 lid0 r0,
        e.2 = (sn0, lid0) :: r0 ∧ (getUnit c sn0).isSome)
    (hmem : (eid, (sn, lid) :: tail) ∈ c.subscriptions)
    (husn : getUnit c sn = some u) (hfl : u.findListener lid = some l) :
    ∃ c' ub, composeState dev c b = .ok c' ∧ getUnit c' b = some ub ∧
      l ∈ ub.emit ∧ ∀ s, s ≠ b → getUnit c' s = getUnit c s := by
  have hcompose : composeState dev c b
      = reIndexGo b { c with units := upsertUnit c.units b ⟨b, [], 0⟩ }
          c.subscriptions := by
    simp [composeState, hb, reIndexSubscriptions]
  set c1 : Container := { c with units := upsertUnit c.units b ⟨b, [], 0⟩ }
    with hc1
  have hub1 : getUnit c1 b = some ⟨b, [], 0⟩ := by
    simpa [getUnit, hc1] using lookupUnit_upsert_self c.units b ⟨b, [], 0⟩
  have hpres1 : ∀ s, s ≠ b → getUnit c1 s = getUnit c s := by
    intro s hs
    simpa [getUnit, hc1] using lookupUnit_upsert_other c.units b s ⟨b, [], 0⟩ hs
  have hneb : ∀ sn0 : String, (getUnit c sn0).isSome → sn0 ≠ b := by
    intro sn0 hs hbeq
    rw [hbeq, hb] at hs
    simp at hs
  have hcond : ∀ e ∈ c.subscriptions, ∃ sn0 lid0 r0,
      e.2 = (sn0, lid0) :: r0 ∧ sn0 ≠ b ∧ (getUnit c1 sn0).isSome := by
    intro e he
    obtain ⟨sn0, lid0, r0, h1, h2⟩ := hall e he
    have hne := hneb sn0 h2
    exact ⟨sn0, lid0, r0, h1, hne, by rw [hpres1 sn0 hne]; exact h2⟩
  obtain ⟨pre, post, hsplit⟩ := List.append_of_mem hmem
  obtain ⟨cp, ubp, extp, hgop, hubp, hsubp, hpresp⟩ :=
    reIndexGo_extends b pre c1 ⟨b, [], 0⟩ hub1 (fun e he =>
      hcond e (by rw [hsplit]; exact List.mem_append_left _ he))
  have hsnb : sn ≠ b := hneb sn (by rw [husn]; rfl)
  have husncp : getUnit cp sn = some u := by
    rw [hpresp sn hsnb, hpres1 sn hsnb, husn]
  have hstep : reIndexStep b cp (eid, (sn, lid) :: tail)
      = .ok { cp with
              units := upsertUnit cp.units b (ubp.subscribe l).1,
              subscriptions := setSubscription cp.subscriptions eid
                (((sn, lid) :: tail) ++ [(b, (ubp.subscribe l).2)]) } := by
    simp [reIndexStep, husncp, hfl, hubp]
  set cE : Container :=
    { cp with
      units := upsertUnit cp.units b (ubp.subscribe l).1,
      subscriptions := setSubscription cp.subscriptions eid
        (((sn, lid) :: tail) ++ [(b, (ubp.subscribe l).2)]) } with hcE
  have hubE : getUnit cE b = some (ubp.subscribe l).1 := by
    simpa [getUnit, hcE] using lookupUnit_upsert_self cp.units b (ubp.subscribe l).1
  have hpresE : ∀ s, s ≠ b → getUnit cE s = getUnit cp s := by
    intro s hs
    simpa [getUnit, hcE] using
      lookupUnit_upsert_other cp.units b s (ubp.subscribe l).1 hs
  obtain ⟨c', ub', ext', hgoPost, hub', hsub', hpres'⟩ :=
    reIndexGo_extends b post cE (ubp.subscribe l).1 hubE (by
      intro e he
      obtain ⟨sn0, lid0, r0, h1, h2, h3⟩ := hcond e (by
        rw [hsplit]
        exact List.mem_append_right _ (List.mem_cons_of_mem _ he))
      refine ⟨sn0, lid0, r0, h1, h2, ?_⟩
      rw [hpresE sn0 h2, hpresp sn0 h2]
      exact h3)
  refine ⟨c', ub', ?_, hub', ?_, ?_⟩
  · rw [hcompose, hsplit, reIndexGo_append, hgop]
    show reIndexGo b cp ((eid, (sn, lid) :: tail) :: post) = Except.ok c'
    rw [reIndexGo, hstep]
    show reIndexGo b cE post = Except.ok c'
    exact hgoPost
  · simp [SUnit.emit, hsub', SUnit.subscribe]
  · intro s hs
    rw [hpres' s hs, hpresE s hs, hpresp s hs, hpres1 s hs]

/-- Witness for `C2_reindex_covers_new_unit`: compose `"a"`, `subscribeAll`
with callback 7, then compose `"b"`; callback 7's listener is registered on
`"b"`, so `"b"`'s notifications invoke it. -/
theorem C2_reindex_covers_new_unit_witness :
    ∃ c' ub,
      composeState true ⟨[("a", ⟨"a", [(0, 7)], 1⟩)], [(0, [("a", 0)])], 1⟩ "b"
        = .ok c' ∧ getUnit c' "b" = some ub ∧ (7 : Listener) ∈ ub.emit ∧
      ∀ s, s ≠ "b" →
        getUnit c' s
          = getUnit ⟨[("a", ⟨"a", [(0, 7)], 1⟩)], [(0, [("a", 0)])], 1⟩ s :=
  C2_reindex_covers_new_unit true
    ⟨[("a", ⟨"a", [(0, 7)], 1⟩)], [(0, [("a", 0)])], 1⟩ "b" 0 "a" 0 [] 7
    ⟨"a", [(0, 7)], 1⟩ rfl
    (by
      intro e he
      simp only [List.mem_singleton] at he
      exact ⟨"a", 0, [], by rw [he], rfl⟩)
    (by simp) rfl rfl

/-- C3 counterexample.  In a non-development build (`NODE_ENV` is not
`"development"`), `guardDuplicateStates` is a no-op inside `developmentGuard`:
composing a duplicate name `"a"` on a container that already holds a unit
`"a"` with one registered subscriber succeeds instead of failing, and the
stored unit is silently replaced by the fresh, subscriber-less unit. -/
theorem C3_counterexample_production_overwrite :
    composeState false ⟨[("a", ⟨"a", [(0, 7)], 1⟩)], [], 0⟩ "a"
        = .ok ⟨[("a", ⟨"a", [], 0⟩)], [], 0⟩ ∧
    getUnit ⟨[("a", ⟨"a", [], 0⟩)], [], 0⟩ "a" = some ⟨"a", [], 0⟩ ∧
    getUnit ⟨[("a", ⟨"a", [(0, 7)], 1⟩)], [], 0⟩ "a" = some ⟨"a", [(0, 7)], 1⟩ ∧
    (⟨"a", [], 0⟩ : SUnit) ≠ ⟨"a", [(0, 7)], 1⟩ :=
  ⟨rfl, rfl, rfl, by decide⟩

/-- C3 (amended).  In a development build, `composeState` with a name already
present on the container throws the duplicate-name error before storing
anything, so the existing unit is not replaced. -/
theorem C3_amended_dev_build_rejects_duplicate (c : Container) (name : String)
    (h : (getUnit c name).isSome) :
    composeState true c name = .error .duplicateName := by
  simp [composeState, h]

/-- Witness for `C3_amended_dev_build_rejects_duplicate`. -/
theorem C3_amended_dev_build_rejects_duplicate_witness :
    composeState true ⟨[("a", ⟨"a", [(0, 7)], 1⟩)], [], 0⟩ "a"
      = .error .duplicateName :=
  C3_amended_dev_build_rejects_duplicate
    ⟨[("a", ⟨"a", [(0, 7)], 1⟩)], [], 0⟩ "a" rfl

/-- C8.  The claimed "subscription bookkeeping never raises" fails on the
code: `subscribeAll` on a container owning zero units records an empty tuple
list, and the next `composeState`'s re-index pass destructures
`unitSubscriptions[0]` — `undefined` — raising a TypeError.  This evaluates
the embedded code at that failing input. -/
theorem C8_subscribeAll_empty_then_compose_raises :
    (subscribeAll ⟨[], [], 0⟩ 7).1.subscriptions = [(0, [])] ∧
    composeState true (subscribeAll ⟨[], [], 0⟩ 7).1 "a"
      = .error .typeError ∧
    composeState false (subscribeAll ⟨[], [], 0⟩ 7).1 "a"
      = .error .typeError :=
  ⟨rfl, rfl, rfl⟩

/-!
## `State.clone`, `State.reset` and a heap of shared references

`State.clone` copies exactly one level — `[...state]`, `new Set(state)`,
`new Map(state)`, `{...state}` — and returns scalars as-is, so any reference
stored *inside* the cloned value is shared between the clone and the
original.  To state what `reset` restores, values are modelled over an
explicit heap: a `Val` is a scalar or the address of a heap node, a node is
its list of field values, and cloning a reference allocates one fresh node
with the same field list. -/

/-- A JavaScript value held in a variable or field: a scalar, or a reference
to a heap object (array / record; `Set` and `Map` behave identically for the
claim). -/
inductive Val where
  | prim (n : Int)
  | ref (a : Nat)
deriving DecidableEq

/-- The object heap: the node at address `a` is `h.getD a []`, its list of
field values.  Allocation appends a node. -/
abbrev Heap := List (List Val)

/-- Model of `State.clone(state)`: scalars (`return state`) are returned as-is; an
array / set / map / record is copied one level deep — a fresh node holding
the same field values, nested references shared. -/
def clone (h : Heap) : Val → Heap × Val
  | .prim n => (h, .prim n)
  | .ref a => (h ++ [h.getD a []], .ref h.length)

/-- A `State` unit's value cell: its heap, the live `this.state`, and the
cached `this.initialState`. -/
structure StateU where
  heap : Heap
  state : Val
  initialState : Val
deriving DecidableEq

/-- The `State` constructor: `this.state = initialState;
this.initialState = State.clone(initialState);`. -/
def mkState (h : Heap) (v : Val) : StateU :=
  let r := clone h v
  { heap := r.1, state := v, initialState := r.2 }

/-- Model of `State.reset`: `this.state = State.clone(this.initialState);` (the
surrounding mutation wrapper also fires hooks and schedules a notification,
which do not affect the restored value). -/
def reset (s : StateU) : StateU :=
  let r := clone s.heap s.initialState
  { s with heap := r.1, state := r.2 }

/-- A mutation body writing a node reachable from the live state, e.g.
`MyState.update(state => { state.listItems.push(2) })`: overwrite the field
list stored at address `a`. -/
def writeNode (s : StateU) (a : Nat) (fs : List Val) : StateU :=
  { s with heap := s.heap.set a fs }

/-- A mutation body that only rewrites the top level of the live state's own
node, e.g. `MyState.update(state => { state.x = 3 })`. -/
def topMutate (s : StateU) (f : List Val → List Val) : StateU :=
  match s.state with
  | .prim _ => s
  | .ref a => { s with heap := s.heap.set a (f (s.heap.getD a [])) }

/-- Structural equality of heap value `v1` (under `h1`) and `v2` (under
`h2`), compared to depth `fuel`: equal scalars, or references to nodes of
equal length whose fields are pairwise structurally equal. -/
def structEq (h1 h2 : Heap) : Nat → Val → Val → Bool
  | 0, _, _ => false
  | _ + 1, .prim n, .prim m => n == m
  | fuel + 1, .ref a, .ref b =>
      ((h1.getD a []).length == (h2.getD b []).length) &&
        ((h1.getD a []).zip (h2.getD b [])).all
          (fun p => structEq h1 h2 fuel p.1 p.2)
  | _ + 1, .prim _, .ref _ => false
  | _ + 1, .ref _, .prim _ => false

/-- Writing one heap node leaves every other node unchanged. -/
lemma getD_set_ne (l : Heap) (i j : Nat) (x : List Val) (hij : i ≠ j) :
    (l.set i x).getD j [] = l.getD j [] := by
  simp [List.getD_eq_getElem?_getD, List.getElem?_set_ne hij]

/-- A sequence of top-level-only mutation bodies keeps the live-state
reference, the initial-state reference, the heap size, and every node other
than the live state's own node. -/
lemma fold_topMutate_inv (a0 : Nat) (fs : List (List Val → List Val)) :
    ∀ s : StateU, s.state = .ref a0 →
    (fs.foldl topMutate s).state = .ref a0 ∧
    (fs.foldl topMutate s).initialState = s.initialState ∧
    (fs.foldl topMutate s).heap.length = s.heap.length ∧
    ∀ j, j ≠ a0 → (fs.foldl topMutate s).heap.getD j [] = s.heap.getD j [] := by
  induction fs with
  | nil => intro s hst; exact ⟨hst, rfl, rfl, fun _ _ => rfl⟩
  | cons f rest ih =>
      intro s hst
      rw [List.foldl_cons]
      have hs1 : topMutate s f
          = { s with heap := s.heap.set a0 (f (s.heap.getD a0 [])) } := by
        simp [topMutate, hst]
      rw [hs1]
      obtain ⟨h1, h2, h3, h4⟩ :=
        ih { s with heap := s.heap.set a0 (f (s.heap.getD a0 [])) } hst
      refine ⟨h1, h2, by rw [h3]; exact List.length_set .., ?_⟩
      intro j hj
      rw [h4 j hj]
      exact getD_set_ne s.heap a0 j _ (fun hh => hj hh.symm)

/-- Nodes appended to the heap do not change the existing nodes. -/
lemma getD_append_left (l l2 : Heap) (i : Nat) (hi : i < l.length) :
    (l ++ l2).getD i [] = l.getD i [] := by
  simp [List.getD_eq_getElem?_getD, List.getElem?_append_left hi]

/-- Well-formedness of a value nested inside the live state, to depth `fuel`,
relative to heap `h` and the state's own top-level address `bad`: every
reference reachable from the value points at an allocated node (a real
JavaScript reference always does) and never at the state's own node (if the
state were nested inside itself, a top-level write would simultaneously be a
nested mutation). -/
def okVal (h : Heap) (bad : Nat) : Nat → Val → Bool
  | 0, _ => false
  | _ + 1, .prim _ => true
  | fuel + 1, .ref b =>
      (decide (b ≠ bad)) && (decide (b < h.length)) &&
        (h.getD b []).all (okVal h bad fuel)

/-- Checking a list against itself pairwise reduces to each element against
itself. -/
lemma all_zip_self (q : Val → Val → Bool) (l : List Val)
    (hq : ∀ w ∈ l, q w w = true) :
    (l.zip l).all (fun p => q p.1 p.2) = true := by
  induction l with
  | nil => rfl
  | cons v rest ih =>
      simp only [List.zip_cons_cons, List.all_cons]
      exact (Bool.and_eq_true ..).mpr
        ⟨hq v (List.mem_cons_self v rest),
         ih (fun w hw => hq w (List.mem_cons_of_mem _ hw))⟩

/-- Frame property: a well-formed value compares structurally equal to itself
between a modified heap `g` and the original heap `h`, as long as `g` agrees
with `h` on every allocated node other than the state's own node `a0` — the
reachable part of the structure lives entirely in the agreeing region. -/
lemma structEq_frame (g h : Heap) (a0 : Nat)
    (hagree : ∀ b, b < h.length → b ≠ a0 → g.getD b [] = h.getD b []) :
    ∀ fuel v, okVal h a0 fuel v = true → structEq g h fuel v v = true := by
  intro fuel
  induction fuel with
  | zero => intro v hv; simp [okVal] at hv
  | succ n ih =>
      intro v hv
      cases v with
      | prim k => simp [structEq]
      | ref b =>
          rw [okVal, Bool.and_eq_true, Bool.and_eq_true] at hv
          obtain ⟨⟨hb1, hb2⟩, hall⟩ := hv
          rw [decide_eq_true_eq] at hb1 hb2
          have hg : g.getD b [] = h.getD b [] := hagree b hb2 hb1
          rw [structEq, hg]
          refine (Bool.and_eq_true ..).mpr ⟨by simp, ?_⟩
          exact all_zip_self _ _
            (fun w hw => ih w (List.all_eq_true.mp hall w hw))

/-- C7 counterexample.  Unit built on the initial value `[[1]]` (heap: inner
array `[1]` at address 0, outer array `[ref 0]` at address 1).  Construction
shallow-clones the outer array only, so the cached initial state (address 2)
shares the inner array.  The legitimate wrapped mutation
`update(state => state[0].push(2))` rewrites the shared inner node; `reset`
then shallow-clones the corrupted snapshot, and the restored value `[[1, 2]]`
is not structurally equal to the originally supplied `[[1]]` (compared at
depth 5, well beyond the structure's depth 2). -/
theorem C7_counterexample_nested_mutation_survives_reset :
    reset (writeNode (mkState [[Val.prim 1], [Val.ref 0]] (Val.ref 1)) 0
        [Val.prim 1, Val.prim 2])
      = ⟨[[Val.prim 1, Val.prim 2], [Val.ref 0], [Val.ref 0], [Val.ref 0]],
         Val.ref 3, Val.ref 2⟩ ∧
    structEq
      (reset (writeNode (mkState [[Val.prim 1], [Val.ref 0]] (Val.ref 1)) 0
          [Val.prim 1, Val.prim 2])).heap
      [[Val.prim 1], [Val.ref 0]] 5
      (reset (writeNode (mkState [[Val.prim 1], [Val.ref 0]] (Val.ref 1)) 0
          [Val.prim 1, Val.prim 2])).state
      (Val.ref 1) = false :=
  ⟨rfl, rfl⟩

/-- C7 (amended).  `reset` restores `currentState` to a value structurally
equal to the originally supplied initial value — nested values included —
provided the prior mutations only rewrote the top level of the live state's
own node; mutations of values nested inside the state are shared with the
shallow initial-state snapshot and survive `reset`.  The initial value may
nest arbitrarily: `okVal` only requires the nested references to be real
(allocated) and not to reach back into the state's own top-level node, in
which case a "top-level" write would also be a nested mutation. -/
theorem C7_amended_reset_restores_after_top_level_mutations
    (h : Heap) (a0 : Nat) (fs : List (List Val → List Val)) (fuel : Nat)
    (ha0 : a0 < h.length)
    (hok : ∀ v ∈ h.getD a0 [], okVal h a0 fuel v = true) :
    structEq (reset (fs.foldl topMutate (mkState h (Val.ref a0)))).heap h
      (fuel + 1)
      (reset (fs.foldl topMutate (mkState h (Val.ref a0)))).state
      (Val.ref a0) = true := by
  have hs0 : mkState h (Val.ref a0)
      = ⟨h ++ [h.getD a0 []], Val.ref a0, Val.ref h.length⟩ := by
    simp [mkState, clone]
  obtain ⟨hst, hinit, hlen, hother⟩ :=
    fold_topMutate_inv a0 fs (mkState h (Val.ref a0)) (by rw [hs0])
  set s1 := fs.foldl topMutate (mkState h (Val.ref a0)) with hs1
  have hlenne : (h.length : Nat) ≠ a0 := fun hh => absurd ha0 (by rw [← hh]; simp)
  have hsnap : s1.heap.getD h.length [] = h.getD a0 [] := by
    rw [hother h.length hlenne, hs0]
    simp [List.getD_eq_getElem?_getD, List.getElem?_concat_length]
  have hlen1 : s1.heap.length = h.length + 1 := by
    rw [hlen, hs0]
    simp
  have hreset : reset s1
      = { s1 with heap := s1.heap ++ [s1.heap.getD h.length []],
                  state := Val.ref s1.heap.length } := by
    rw [reset]
    rw [hinit, hs0]
    rfl
  rw [hreset]
  have hnode : (s1.heap ++ [s1.heap.getD h.length []]).getD s1.heap.length []
      = h.getD a0 [] := by
    rw [← hsnap]
    simp [List.getD_eq_getElem?_getD, List.getElem?_concat_length]
  have hagree : ∀ b, b < h.length → b ≠ a0 →
      (s1.heap ++ [s1.heap.getD h.length []]).getD b [] = h.getD b [] := by
    intro b hb hba
    rw [getD_append_left _ _ b (by rw [hlen1]; exact Nat.lt_succ_of_lt hb),
        hother b hba, hs0]
    exact getD_append_left h [h.getD a0 []] b hb
  show structEq (s1.heap ++ [s1.heap.getD h.length []]) h (fuel + 1)
      (Val.ref s1.heap.length) (Val.ref a0) = true
  rw [structEq, hnode]
  refine (Bool.and_eq_true ..).mpr ⟨by simp, ?_⟩
  exact all_zip_self _ _
    (fun w hw => structEq_frame _ h a0 hagree fuel w (hok w hw))

/-- Witness for `C7_amended_reset_restores_after_top_level_mutations`: the
nested initial value `[[1]]` (inner array at address 0, outer at address 1),
one top-level mutation appending `9` (giving `[[1], 9]`); `reset` restores a
value structurally equal to `[[1]]`. -/
theorem C7_amended_reset_restores_after_top_level_mutations_witness :
    structEq
      (reset ([fun l => l ++ [Val.prim 9]].foldl topMutate
          (mkState [[Val.prim 1], [Val.ref 0]] (Val.ref 1)))).heap
      [[Val.prim 1], [Val.ref 0]] 3
      (reset ([fun l => l ++ [Val.prim 9]].foldl topMutate
          (mkState [[Val.prim 1], [Val.ref 0]] (Val.ref 1)))).state
      (Val.ref 1) = true :=
  C7_amended_reset_restores_after_top_level_mutations
    [[Val.prim 1], [Val.ref 0]] 1 [fun l => l ++ [Val.prim 9]] 2 (by decide)
    (by
      intro v hv
      simp at hv
      subst hv
      rfl)

end Galena
